import Mathlib

/-!
Verification of the multi-sensor recording coordinator (GSR unified system).

This file gives a shallow embedding, in Lean 4, of the core subsystems of the
repository and proves (or refutes) the frozen behavioural claims about them:

* `SessionManager` (`pc-app-windows/app/session/session_manager.py`):
  session lifecycle and per-device directory naming;
* `FileTransferManager` (`pc-app/app/transfer/file_transfer_manager.py`):
  the bulk file-transfer receive loop and its status state machine;
* `DeviceManager` (`pc-app-windows/app/network/device_manager.py`):
  registration handshake and the heartbeat monitor;
* `GSRHandler` (`pc-app-windows/app/sensors/gsr_handler.py`):
  the bounded capture queue;
* time-sync and alignment utilities
  (`windows/app/time_sync_utils.py`, `windows/app/data_alignment_utils.py`).

Conventions: wall-clock values (Python floats from `time.time()`) are modelled
as rationals `ℚ`; millisecond timestamps handled with integer arithmetic are
`ℤ`; Python dictionaries keyed by strings are association lists in insertion
order; the effect of filesystem calls is recorded as an explicit list of
`FsOp` actions; a Python function that raises is modelled with `Except`/
`Option`.  Python `//` is floor division, `Int.fdiv` here.
-/

namespace GSRSpec

/-! ### Decimal rendering

`f"{n:03d}"` renders `n` in decimal, left-padded with zeros to width 3.  We
model it by the digit list of `n` padded with leading zeros.  Injectivity of
the rendering is established by recovering the number from its digits. -/

/-- Fuel-driven digit expansion; with fuel at least `n` it produces the
base-10 digit list of `n`, most significant first. -/
def toDigitsGo : Nat → Nat → List Nat
  | 0, n => [n]
  | fuel + 1, n => if n < 10 then [n] else toDigitsGo fuel (n / 10) ++ [n % 10]

/-- The base-10 digit list of `n`, most significant first (`[0]` for zero),
as produced by decimal formatting. -/
def toDigits (n : Nat) : List Nat := toDigitsGo n n

/-- Reads a digit list back into a number (left fold, most significant first). -/
def ofDigits (l : List Nat) : Nat :=
  l.foldl (fun a d => a * 10 + d) 0

theorem ofDigits_cons_aux (l : List Nat) (a : Nat) :
    l.foldl (fun a d => a * 10 + d) a = a * 10 ^ l.length + ofDigits l := by
  induction l generalizing a with
  | nil =>
    show a = a * 10 ^ 0 + ofDigits []
    show a = a * 10 ^ 0 + List.foldl (fun a d => a * 10 + d) 0 []
    simp
  | cons d rest ih =>
    show List.foldl (fun a d => a * 10 + d) (a * 10 + d) rest
        = a * 10 ^ (d :: rest).length + ofDigits (d :: rest)
    rw [ih (a * 10 + d)]
    have : ofDigits (d :: rest) = List.foldl (fun a d => a * 10 + d) (0 * 10 + d) rest := rfl
    rw [this, ih (0 * 10 + d), List.length_cons]
    ring

theorem ofDigits_append (l₁ l₂ : List Nat) :
    ofDigits (l₁ ++ l₂) = ofDigits l₁ * 10 ^ l₂.length + ofDigits l₂ := by
  unfold ofDigits
  rw [List.foldl_append]
  exact ofDigits_cons_aux l₂ _

theorem ofDigits_toDigitsGo : ∀ fuel n, n ≤ fuel → ofDigits (toDigitsGo fuel n) = n := by
  intro fuel
  induction fuel with
  | zero =>
    intro n hn
    have : n = 0 := Nat.le_zero.mp hn
    subst this
    rfl
  | succ fuel ih =>
    intro n hn
    show ofDigits (if n < 10 then [n] else toDigitsGo fuel (n / 10) ++ [n % 10]) = n
    split
    · show ofDigits [n] = n
      show 0 * 10 + n = n
      omega
    · rename_i h
      rw [ofDigits_append]
      have hdiv : n / 10 ≤ fuel := by
        have : n / 10 < n := Nat.div_lt_self (by omega) (by omega)
        omega
      rw [ih (n / 10) hdiv]
      have hlen : ([n % 10] : List Nat).length = 1 := rfl
      rw [hlen]
      have : ofDigits [n % 10] = n % 10 := by
        show 0 * 10 + n % 10 = n % 10
        omega
      rw [this]
      omega

theorem ofDigits_toDigits (n : Nat) : ofDigits (toDigits n) = n :=
  ofDigits_toDigitsGo n n (Nat.le_refl n)

theorem toDigitsGo_lt_ten : ∀ fuel n, n ≤ fuel → ∀ d ∈ toDigitsGo fuel n, d < 10 := by
  intro fuel
  induction fuel with
  | zero =>
    intro n hn d hd
    have : n = 0 := Nat.le_zero.mp hn
    subst this
    simp [toDigitsGo] at hd
    omega
  | succ fuel ih =>
    intro n hn d hd
    simp only [toDigitsGo] at hd
    split at hd
    · simp at hd
      omega
    · rename_i h
      rw [List.mem_append] at hd
      rcases hd with hd | hd
      · have hdiv : n / 10 ≤ fuel := by
          have : n / 10 < n := Nat.div_lt_self (by omega) (by omega)
          omega
        exact ih (n / 10) hdiv d hd
      · simp at hd
        subst hd
        exact Nat.mod_lt _ (by omega)

theorem toDigits_lt_ten (n : Nat) : ∀ d ∈ toDigits n, d < 10 :=
  toDigitsGo_lt_ten n n (Nat.le_refl n)

/-- Digit list of `n` left-padded with zeros to length at least 3
(the digit-level content of `f"{n:03d}"`). -/
def pad3Digits (n : Nat) : List Nat :=
  List.replicate (3 - (toDigits n).length) 0 ++ toDigits n

theorem ofDigits_replicate_zero_append (k : Nat) (l : List Nat) :
    ofDigits (List.replicate k 0 ++ l) = ofDigits l := by
  unfold ofDigits
  rw [List.foldl_append]
  congr 1
  induction k with
  | zero => simp
  | succ k ih => simpa [List.replicate_succ] using ih

theorem pad3Digits_injective : Function.Injective pad3Digits := by
  intro m n h
  have hm : ofDigits (pad3Digits m) = m := by
    unfold pad3Digits
    rw [ofDigits_replicate_zero_append, ofDigits_toDigits]
  have hn : ofDigits (pad3Digits n) = n := by
    unfold pad3Digits
    rw [ofDigits_replicate_zero_append, ofDigits_toDigits]
  rw [← hm, ← hn, h]

theorem pad3Digits_lt_ten (n : Nat) : ∀ d ∈ pad3Digits n, d < 10 := by
  intro d hd
  unfold pad3Digits at hd
  rw [List.mem_append] at hd
  rcases hd with hd | hd
  · have := List.eq_of_mem_replicate hd
    omega
  · exact toDigits_lt_ten n d hd

/-- `f"{n:03d}"`: the zero-padded (width 3) decimal rendering of `n`. -/
def pad3 (n : Nat) : String :=
  String.mk ((pad3Digits n).map Nat.digitChar)

theorem digitChar_inj_lt_ten : ∀ a < 10, ∀ b < 10,
    Nat.digitChar a = Nat.digitChar b → a = b := by decide

theorem map_digitChar_inj (l₁ l₂ : List Nat)
    (h₁ : ∀ d ∈ l₁, d < 10) (h₂ : ∀ d ∈ l₂, d < 10)
    (h : l₁.map Nat.digitChar = l₂.map Nat.digitChar) : l₁ = l₂ := by
  induction l₁ generalizing l₂ with
  | nil => cases l₂ <;> simp_all
  | cons a as ih =>
    cases l₂ with
    | nil => simp_all
    | cons b bs =>
      simp only [List.map_cons, List.cons.injEq] at h
      have ha : a = b := digitChar_inj_lt_ten a (h₁ a (by simp)) b (h₂ b (by simp)) h.1
      have hrest : as = bs :=
        ih bs (fun d hd => h₁ d (by simp [hd])) (fun d hd => h₂ d (by simp [hd])) h.2
      rw [ha, hrest]

theorem pad3_injective : Function.Injective pad3 := by
  intro m n h
  unfold pad3 at h
  have h' : (pad3Digits m).map Nat.digitChar = (pad3Digits n).map Nat.digitChar := by
    exact congrArg String.data h
  exact pad3Digits_injective
    (map_digitChar_inj _ _ (pad3Digits_lt_ten m) (pad3Digits_lt_ten n) h')

/-! ### SessionManager (`pc-app-windows/app/session/session_manager.py`)

State fields mirror `SessionManager.__init__`; the socket-free effects of the
filesystem calls (`Path.mkdir`, metadata/info writes) are returned as a list
of `FsOp` records.  `datetime.now().strftime(...)` is passed in as the
`timestamp` argument and `time.time()` as `now`. -/

/-- A recorded filesystem action. -/
inductive FsOp
  | mkdir (parents : Bool) (path : String)
  | writeMetadata (path : String)
  | writeDeviceInfo (path : String)
  deriving DecidableEq, Repr

/-- Generic device metadata payload (the `device_info` dict). -/
abbrev DeviceData := List (String × String)

/-- The per-device record stored in `SessionManager.connected_devices`. -/
structure ConnectedDevice where
  device_dir_name : String
  device_dir_path : String
  device_info : DeviceData
  registration_time : ℚ
  deriving DecidableEq, Repr

/-- The mutable state of `SessionManager`. -/
structure SMState where
  base_dir : String
  current_session_dir : Option String
  session_id : Option String
  session_start_time : Option ℚ
  connected_devices : List (String × ConnectedDevice)
  device_counter : Nat
  deriving DecidableEq, Repr

/-- `SessionManager(base_dir)`: the freshly initialised state. -/
def SMState.init (base_dir : String) : SMState :=
  { base_dir := base_dir
    current_session_dir := none
    session_id := none
    session_start_time := none
    connected_devices := []
    device_counter := 0 }

/-- `SessionManager.is_session_active`. -/
def is_session_active (st : SMState) : Bool :=
  st.current_session_dir.isSome

/-- `SessionManager.start_session`: unconditionally generates
`session_<timestamp>`, sets the session fields, creates the session root and
the `analysis` sub-directory, writes the initial manifest, and returns the
identifier.  The source performs no check on an already-active session. -/
def start_session (st : SMState) (timestamp : String) (now : ℚ) :
    SMState × List FsOp × String :=
  let sid := "session_" ++ timestamp
  let dir := st.base_dir ++ "/" ++ sid
  ({ st with
      session_id := some sid
      session_start_time := some now
      current_session_dir := some dir },
   [FsOp.mkdir true dir,
    FsOp.mkdir false (dir ++ "/analysis"),
    FsOp.writeMetadata (dir ++ "/metadata.json")],
   sid)

/-- `SessionManager.stop_session`: writes the final manifest when a session
is active, then clears all in-memory session state. -/
def stop_session (st : SMState) : SMState × List FsOp :=
  ({ st with
      current_session_dir := none
      session_id := none
      session_start_time := none
      connected_devices := []
      device_counter := 0 },
   match st.current_session_dir with
   | some dir => [FsOp.writeMetadata (dir ++ "/metadata.json")]
   | none => [])

/-- Dict assignment `d[k] = v` on an insertion-ordered association list:
replaces the value at an existing key, else appends. -/
def dictInsert {β : Type} (k : String) (v : β) : List (String × β) → List (String × β)
  | [] => [(k, v)]
  | (k', v') :: rest =>
      if k' = k then (k, v) :: rest else (k', v') :: dictInsert k v rest

/-- `SessionManager.register_device`: raises (`Except.error`) when no session
is active; otherwise increments the counter, derives `device_{counter:03d}`,
creates the directory, stores the device record and writes
`device_info.json`, returning the directory name. -/
def register_device (st : SMState) (device_id : String) (device_info : DeviceData)
    (now : ℚ) : Except String (SMState × List FsOp × String) :=
  match st.current_session_dir with
  | none => Except.error "No active session"
  | some sessionDir =>
      let counter := st.device_counter + 1
      let name := "device_" ++ pad3 counter
      let dir := sessionDir ++ "/" ++ name
      Except.ok
        ({ st with
            device_counter := counter
            connected_devices :=
              dictInsert device_id
                { device_dir_name := name
                  device_dir_path := dir
                  device_info := device_info
                  registration_time := now } st.connected_devices },
         [FsOp.mkdir false dir, FsOp.writeDeviceInfo (dir ++ "/device_info.json")],
         name)

/-- An example state in which a session is active (obtained by starting a
session on a fresh manager). -/
def smActive : SMState :=
  (start_session (SMState.init "./sessions") "20240101_120000" 100).1

theorem smActive_active : is_session_active smActive = true := rfl

/-- C1 counterexample: the claim, at the concrete active state `smActive`,
asserts that `start_session` fails and mutates no session state.  In the
source there is no active-session check: the call succeeds (returns the new
identifier) and overwrites the session fields, so the claim is false. -/
theorem C1_counterexample :
    is_session_active smActive = true ∧
    (start_session smActive "20240101_130000" 200).1 ≠ smActive ∧
    (start_session smActive "20240101_130000" 200).2.2 = "session_20240101_130000" := by
  refine ⟨rfl, ?_, rfl⟩
  intro h
  have : (start_session smActive "20240101_130000" 200).1.session_id =
      smActive.session_id := congrArg SMState.session_id h
  simp [start_session, smActive, SMState.init] at this

/-- C1 (amended): `start_session` performs no active-session check.  For
every state — active or not — it generates `session_<timestamp>`, sets the
session fields (overwriting any active session), creates the session root
and the `analysis` sub-directory, writes the initial manifest, and returns
the identifier. -/
theorem C1_start_session_unconditional (st : SMState) (timestamp : String) (now : ℚ) :
    start_session st timestamp now =
      ({ st with
          session_id := some ("session_" ++ timestamp)
          session_start_time := some now
          current_session_dir := some (st.base_dir ++ "/" ++ ("session_" ++ timestamp)) },
       [FsOp.mkdir true (st.base_dir ++ "/" ++ ("session_" ++ timestamp)),
        FsOp.mkdir false (st.base_dir ++ "/" ++ ("session_" ++ timestamp) ++ "/analysis"),
        FsOp.writeMetadata
          (st.base_dir ++ "/" ++ ("session_" ++ timestamp) ++ "/metadata.json")],
       "session_" ++ timestamp) := rfl

/-- A sequence of `register_device` calls issued one after the other
(id, info, wall-clock time).  A failing call raises; its caller
(`DeviceManager._handle_client`) catches the exception and carries on, so a
failed call contributes no name and leaves the state unchanged. -/
def registerAll (st : SMState) : List (String × DeviceData × ℚ) → SMState × List String
  | [] => (st, [])
  | (id, info, t) :: rest =>
    match register_device st id info t with
    | Except.error _ => registerAll st rest
    | Except.ok (st', _, name) =>
        let r := registerAll st' rest
        (r.1, name :: r.2)

theorem register_device_of_active (st : SMState) (dir : String)
    (h : st.current_session_dir = some dir) (id : String) (info : DeviceData) (t : ℚ) :
    register_device st id info t =
      Except.ok
        ({ st with
            device_counter := st.device_counter + 1
            connected_devices :=
              dictInsert id
                { device_dir_name := "device_" ++ pad3 (st.device_counter + 1)
                  device_dir_path := dir ++ "/" ++ ("device_" ++ pad3 (st.device_counter + 1))
                  device_info := info
                  registration_time := t } st.connected_devices },
         [FsOp.mkdir false (dir ++ "/" ++ ("device_" ++ pad3 (st.device_counter + 1))),
          FsOp.writeDeviceInfo
            (dir ++ "/" ++ ("device_" ++ pad3 (st.device_counter + 1)) ++ "/device_info.json")],
         "device_" ++ pad3 (st.device_counter + 1)) := by
  rw [register_device, h]

theorem registerAll_names (dir : String) :
    ∀ (calls : List (String × DeviceData × ℚ)) (st : SMState),
      st.current_session_dir = some dir →
      (registerAll st calls).2 =
        (List.range calls.length).map
          (fun k => "device_" ++ pad3 (st.device_counter + k + 1)) := by
  intro calls
  induction calls with
  | nil => intro st _; rfl
  | cons c rest ih =>
    intro st h
    obtain ⟨id, info, t⟩ := c
    rw [registerAll, register_device_of_active st dir h id info t]
    have h' :
        ({ st with
            device_counter := st.device_counter + 1
            connected_devices :=
              dictInsert id
                { device_dir_name := "device_" ++ pad3 (st.device_counter + 1)
                  device_dir_path := dir ++ "/" ++ ("device_" ++ pad3 (st.device_counter + 1))
                  device_info := info
                  registration_time := t } st.connected_devices } :
          SMState).current_session_dir = some dir := h
    rw [List.length_cons, List.range_succ_eq_map, List.map_cons, List.map_map]
    simp only [ih _ h']
    simp only [Nat.add_zero]
    congr 1
    congr 1
    funext k
    simp only [Function.comp]
    congr 2
    omega

/-- Left-cancellation of the fixed prefix: two zero-padded device names are
equal only when the counters are. -/
theorem deviceName_injective : Function.Injective (fun n => "device_" ++ pad3 n) := by
  intro a b h
  have hd : ("device_" ++ pad3 a).data = ("device_" ++ pad3 b).data :=
    congrArg String.data h
  rw [String.data_append, String.data_append] at hd
  have hmap : (pad3Digits a).map Nat.digitChar = (pad3Digits b).map Nat.digitChar :=
    List.append_cancel_left hd
  exact pad3Digits_injective
    (map_digitChar_inj _ _ (pad3Digits_lt_ten a) (pad3Digits_lt_ten b) hmap)

theorem registerAll_names_nodup (dir : String) (calls : List (String × DeviceData × ℚ))
    (st : SMState) (h : st.current_session_dir = some dir) :
    ((registerAll st calls).2).Nodup := by
  rw [registerAll_names dir calls st h]
  apply List.Nodup.map _ (List.nodup_range _)
  intro a b hab
  have := deviceName_injective hab
  omega

/-- The state reached by registering `phone_a` into the active session
`smActive`. -/
def smAfterFirstReg : SMState :=
  match register_device smActive "phone_a" [("model", "pixel")] 101 with
  | Except.ok r => r.1
  | Except.error _ => smActive

/-- A second session started (without any check) over the still-active first
one; `device_counter` is not reset by `start_session`. -/
def smSecondSession : SMState :=
  (start_session smAfterFirstReg "20240101_140000" 300).1

/-- C5 counterexample: the first `register_device` call inside the (new,
active) session `smSecondSession` returns `device_002`, not `device_001`:
`start_session` does not reset `device_counter`, so numbering within a
session started over a live one does not begin at `device_001` as the claim
requires. -/
theorem C5_counterexample :
    is_session_active smSecondSession = true ∧
    (match register_device smSecondSession "phone_b" [] 301 with
     | Except.ok r => r.2.2
     | Except.error e => e) = "device_002" ∧
    "device_002" ≠ "device_001" := by
  refine ⟨rfl, rfl, ?_⟩
  decide

/-- C5 (amended): provided the active Session began with the device counter
at zero (a fresh manager, or any state after `stop_session` — `start_session`
itself does not reset the counter), the n-th `register_device` call returns
`device_00n` zero-padded strictly in call order; the names issued within one
session are pairwise distinct even when the same device identifier registers
repeatedly; and with no active session `register_device` raises and assigns
no name. -/
theorem C5_register_device_names :
    (∀ (st : SMState) (calls : List (String × DeviceData × ℚ)) (dir : String),
        st.current_session_dir = some dir → st.device_counter = 0 →
        (registerAll st calls).2 =
          (List.range calls.length).map (fun k => "device_" ++ pad3 (k + 1)))
    ∧ (∀ (st : SMState) (calls : List (String × DeviceData × ℚ)) (dir : String),
        st.current_session_dir = some dir → ((registerAll st calls).2).Nodup)
    ∧ (∀ (st : SMState) (id : String) (info : DeviceData) (now : ℚ),
        is_session_active st = false →
        register_device st id info now = Except.error "No active session") := by
  refine ⟨?_, ?_, ?_⟩
  · intro st calls dir h h0
    rw [registerAll_names dir calls st h, h0]
    congr 1
    funext k
    congr 2
    omega
  · intro st calls dir h
    exact registerAll_names_nodup dir calls st h
  · intro st id info now h
    rw [register_device]
    cases hc : st.current_session_dir with
    | none => rfl
    | some d => rw [is_session_active, hc] at h; simp at h

/-- C5 witness: on the concrete active state `smActive` (counter 0), two
registrations of the same device id yield `device_001` then `device_002`,
pairwise distinct; and a fresh (inactive) manager rejects registration. -/
theorem C5_witness :
    smActive.current_session_dir = some "./sessions/session_20240101_120000" ∧
    smActive.device_counter = 0 ∧
    (registerAll smActive [("phone_a", [], 101), ("phone_a", [], 102)]).2 =
      ["device_001", "device_002"] ∧
    ((registerAll smActive [("phone_a", [], 101), ("phone_a", [], 102)]).2).Nodup ∧
    is_session_active (SMState.init "./sessions") = false ∧
    register_device (SMState.init "./sessions") "phone_a" [] 1 =
      Except.error "No active session" := by
  refine ⟨rfl, rfl, ?_, ?_, rfl, ?_⟩
  · have := C5_register_device_names.1 smActive
      [("phone_a", [], 101), ("phone_a", [], 102)]
      "./sessions/session_20240101_120000" rfl rfl
    rw [this]
    rfl
  · exact C5_register_device_names.2.1 smActive
      [("phone_a", [], 101), ("phone_a", [], 102)]
      "./sessions/session_20240101_120000" rfl
  · exact C5_register_device_names.2.2 (SMState.init "./sessions") "phone_a" [] 1 rfl

/-! ### FileTransferManager (`pc-app/app/transfer/file_transfer_manager.py`)

The transfer state dict kept in `active_transfers[device_id]` becomes
`TransferInfo`.  The inbound byte stream of `_handle_file_transfer` is
abstracted into a list of `Frame`s, one per 1024-byte header it reads:

* `Frame.file name size delivered` — a header that parses to
  `{type: "file", filename, size}`, after which the peer supplies
  `delivered` payload bytes (`delivered < size` models the peer closing the
  connection mid-payload: `recv` then returns empty both inside the payload
  loop and at the next header read);
* `Frame.complete` — a header that parses to `{type: "complete"}`;
* `Frame.other` — a header that parses but whose `type` is neither `file`
  nor `complete` (the `if`/`elif` chain matches nothing and the loop simply
  reads the next header);
* `Frame.malformed` — 1024 header bytes on which `json.loads` raises
  `JSONDecodeError` (logged, then `break`);
* `Frame.badFileHeader` — a header that parses to `{type: "file"}` but lacks
  `filename`/`size`, so subscripting raises and the outer `except` marks the
  transfer failed.

The end of the frame list models the peer closing, upon which
`_receive_exact` returns empty bytes and the loop breaks. -/

/-- The transfer `status` strings. -/
inductive TStatus
  | starting
  | transferring
  | completed
  | failed
  | cancelled
  deriving DecidableEq, Repr

/-- The per-device dict created by `start_file_transfer` (socket-free
fields). -/
structure TransferInfo where
  status : TStatus
  files : List String
  total_files : Nat
  transferred_files : Nat
  total_size : Nat
  transferred_size : Nat
  start_time : ℚ
  destination_dir : String
  error : Option String
  deriving DecidableEq, Repr

/-- The device-reported file list (`files`, `total_size`). -/
structure FileListInfo where
  files : List String
  total_size : Nat
  deriving DecidableEq, Repr

/-- `FileTransferManager.request_device_files`: when the command send
succeeds it returns the mock response — an empty file list of total size 0;
on a failed send it returns `None`. -/
def request_device_files (sendOk : Bool) : Option FileListInfo :=
  if sendOk then some { files := [], total_size := 0 } else none

/-- The `active_transfers[device_id]` dict as initialised by
`start_file_transfer` lines 77–86. -/
def startTransferInfo (fi : FileListInfo) (now : ℚ) (device_dir : String) : TransferInfo :=
  { status := TStatus.starting
    files := fi.files
    total_files := fi.files.length
    transferred_files := 0
    total_size := fi.total_size
    transferred_size := 0
    start_time := now
    destination_dir := device_dir
    error := none }

/-- One header-delimited unit of the inbound transfer stream. -/
inductive Frame
  | file (filename : String) (size : Nat) (delivered : Nat)
  | complete
  | other
  | malformed
  | badFileHeader
  deriving DecidableEq, Repr

/-- The receive loop of `_handle_file_transfer` (lines 173–246), returning
the final transfer dict together with the files written to disk as
`(filename, bytes on disk)`; nothing is ever deleted. -/
def runTransferLoop (ti : TransferInfo) (written : List (String × Nat)) :
    List Frame → TransferInfo × List (String × Nat)
  | [] => (ti, written)
  | Frame.malformed :: _ => (ti, written)
  | Frame.badFileHeader :: _ =>
      ({ ti with status := TStatus.failed, error := some "header exception" }, written)
  | Frame.other :: rest => runTransferLoop ti written rest
  | Frame.complete :: _ => ({ ti with status := TStatus.completed }, written)
  | Frame.file name size delivered :: rest =>
      let received := min delivered size
      let ti' := { ti with transferred_size := ti.transferred_size + received }
      let written' := written ++ [(name, received)]
      if received = size then
        runTransferLoop { ti' with transferred_files := ti'.transferred_files + 1 }
          written' rest
      else
        (ti', written')

/-- `FileTransferManager.cancel_transfer` on one device's entry of
`active_transfers`: unconditionally overwrites the status with `cancelled`
whenever an entry exists, returning `True`; returns `False` otherwise. -/
def cancel_transfer : Option TransferInfo → Option TransferInfo × Bool
  | some ti => (some { ti with status := TStatus.cancelled }, true)
  | none => (none, false)

/-- A transfer entry as it stands when `_handle_file_transfer` begins:
created by `start_file_transfer` from the (mock) device file list, then
marked `transferring` by `_transfer_files_thread`. -/
def tiTransferring : TransferInfo :=
  { startTransferInfo { files := [], total_size := 0 } 0 "sessions/s/device_d"
      with status := TStatus.transferring }

/-- C2 counterexample: a header that fails to parse makes the receive loop
`break` with the status still `transferring` — the `Transferring → Failed`
transition the claim requires does not happen. -/
theorem C2_counterexample :
    (runTransferLoop tiTransferring [] [Frame.malformed]).1.status = TStatus.transferring ∧
    TStatus.transferring ≠ TStatus.failed := by
  exact ⟨rfl, by decide⟩

/-- C2 (amended): a header that fails JSON parsing ends the receive loop
with the transfer state (in particular its status) unchanged — not Failed; a
header whose type is neither `file` nor `complete` is skipped and the loop
continues with the next header; a short read (peer closes before the
declared payload arrives) ends the loop with the status unchanged while the
partial file is retained on disk with the bytes received so far and is not
deleted; only an exception raised while handling a parsed header (e.g. a
`file` header lacking `filename`/`size`) marks the transfer Failed. -/
theorem C2_transfer_error_paths :
    (∀ (ti : TransferInfo) (w : List (String × Nat)) (rest : List Frame),
        runTransferLoop ti w (Frame.malformed :: rest) = (ti, w))
    ∧ (∀ (ti : TransferInfo) (w : List (String × Nat)) (rest : List Frame),
        runTransferLoop ti w (Frame.other :: rest) = runTransferLoop ti w rest)
    ∧ (∀ (ti : TransferInfo) (w : List (String × Nat)) (name : String)
        (size delivered : Nat) (rest : List Frame), delivered < size →
        runTransferLoop ti w (Frame.file name size delivered :: rest) =
          ({ ti with transferred_size := ti.transferred_size + delivered },
           w ++ [(name, delivered)]))
    ∧ (∀ (ti : TransferInfo) (w : List (String × Nat)) (rest : List Frame),
        runTransferLoop ti w (Frame.badFileHeader :: rest) =
          ({ ti with status := TStatus.failed, error := some "header exception" }, w)) := by
  refine ⟨fun _ _ _ => rfl, fun _ _ _ => rfl, ?_, fun _ _ _ => rfl⟩
  intro ti w name size delivered rest h
  have hmin : min delivered size = delivered := Nat.min_eq_left (Nat.le_of_lt h)
  have hne : ¬(min delivered size = size) := by omega
  simp only [runTransferLoop, hmin, if_neg (hmin ▸ hne)]

/-- C2 witness: a file of declared size 5 cut off after 2 bytes leaves the
status `transferring` and the 2-byte partial file on disk. -/
theorem C2_witness :
    (2 : Nat) < 5 ∧
    runTransferLoop tiTransferring [] [Frame.file "gsr.csv" 5 2] =
      ({ tiTransferring with transferred_size := tiTransferring.transferred_size + 2 },
       [("gsr.csv", 2)]) := by
  refine ⟨by decide, ?_⟩
  have := C2_transfer_error_paths.2.2.1 tiTransferring [] "gsr.csv" 5 2 [] (by decide)
  simpa using this

/-- C3 counterexample: `start_file_transfer` initialises the transfer from
the mock `request_device_files` response (`total_size = 0`, no files), so a
single delivered 5-byte file drives `transferred_size` and
`transferred_files` strictly above the recorded totals. -/
theorem C3_counterexample :
    request_device_files true = some { files := [], total_size := 0 } ∧
    tiTransferring.total_size = 0 ∧
    tiTransferring.total_files = 0 ∧
    ¬((runTransferLoop tiTransferring [] [Frame.file "gsr.csv" 5 5]).1.transferred_size
        ≤ tiTransferring.total_size) ∧
    ¬((runTransferLoop tiTransferring [] [Frame.file "gsr.csv" 5 5]).1.transferred_files
        ≤ tiTransferring.total_files) := by
  refine ⟨rfl, rfl, rfl, ?_, ?_⟩ <;> decide

theorem runTransferLoop_monotone :
    ∀ (frames : List Frame) (ti : TransferInfo) (w : List (String × Nat)),
      ti.transferred_size ≤ (runTransferLoop ti w frames).1.transferred_size ∧
      ti.transferred_files ≤ (runTransferLoop ti w frames).1.transferred_files ∧
      (runTransferLoop ti w frames).1.total_size = ti.total_size ∧
      (runTransferLoop ti w frames).1.total_files = ti.total_files := by
  intro frames
  induction frames with
  | nil => intro ti w; exact ⟨Nat.le_refl _, Nat.le_refl _, rfl, rfl⟩
  | cons f rest ih =>
    intro ti w
    cases f with
    | malformed => exact ⟨Nat.le_refl _, Nat.le_refl _, rfl, rfl⟩
    | badFileHeader => exact ⟨Nat.le_refl _, Nat.le_refl _, rfl, rfl⟩
    | complete => exact ⟨Nat.le_refl _, Nat.le_refl _, rfl, rfl⟩
    | other => exact ih ti w
    | file name size delivered =>
      show ti.transferred_size ≤ (runTransferLoop ti w (Frame.file name size delivered :: rest)).1.transferred_size ∧ _
      rw [runTransferLoop]
      split
      · rename_i hfull
        have h := ih
          { ti with
              transferred_size := ti.transferred_size + min delivered size
              transferred_files := ti.transferred_files + 1 }
          (w ++ [(name, min delivered size)])
        refine ⟨Nat.le_trans (Nat.le_add_right _ _) h.1,
                Nat.le_trans (Nat.le_add_right _ _) h.2.1, h.2.2.1, h.2.2.2⟩
      · exact ⟨Nat.le_add_right _ _, Nat.le_refl _, rfl, rfl⟩

/-- C3 (amended): `start_file_transfer` records as totals exactly the
device-reported file count and byte total — which the current
`request_device_files` always reports as `0` files and `0` bytes — while the
receive loop lets `transferred_size`/`transferred_files` grow without ever
consulting the totals: the transferred counters are monotonically
non-decreasing and the totals are invariant, but the claimed bounds
`transferred_size ≤ total_size` and `transferred_files ≤ total_files` are
not maintained (any received data exceeds the zero totals). -/
theorem C3_transfer_counters :
    (∀ (fi : FileListInfo) (now : ℚ) (dir : String),
        (startTransferInfo fi now dir).total_files = fi.files.length ∧
        (startTransferInfo fi now dir).total_size = fi.total_size ∧
        (startTransferInfo fi now dir).transferred_files = 0 ∧
        (startTransferInfo fi now dir).transferred_size = 0)
    ∧ (∀ sendOk : Bool, request_device_files sendOk =
        if sendOk then some { files := [], total_size := 0 } else none)
    ∧ (∀ (ti : TransferInfo) (w : List (String × Nat)) (frames : List Frame),
        ti.transferred_size ≤ (runTransferLoop ti w frames).1.transferred_size ∧
        ti.transferred_files ≤ (runTransferLoop ti w frames).1.transferred_files ∧
        (runTransferLoop ti w frames).1.total_size = ti.total_size ∧
        (runTransferLoop ti w frames).1.total_files = ti.total_files) := by
  exact ⟨fun _ _ _ => ⟨rfl, rfl, rfl, rfl⟩, fun _ => rfl,
    fun ti w frames => runTransferLoop_monotone frames ti w⟩

/-- A transfer entry that has already reached the terminal `completed`
status. -/
def tiCompleted : TransferInfo :=
  { tiTransferring with status := TStatus.completed }

/-- C7 counterexample: `cancel_transfer` on a device whose transfer already
completed overwrites the terminal `completed` status with `cancelled`,
contradicting the claim that a terminal status never changes. -/
theorem C7_counterexample :
    tiCompleted.status = TStatus.completed ∧
    cancel_transfer (some tiCompleted) =
      (some { tiCompleted with status := TStatus.cancelled }, true) ∧
    TStatus.cancelled ≠ TStatus.completed := by
  exact ⟨rfl, rfl, by decide⟩

/-- C7 (amended): within the receive loop a `transferring` status only moves
forward — it ends as `transferring`, `completed` or `failed` — but
`cancel_transfer` unconditionally overwrites the status of any existing
transfer entry (terminal or not) with `cancelled` and reports `True`, so a
terminal status is not stable against a later cancel call; with no entry it
changes nothing and reports `False`. -/
theorem C7_status_transitions :
    (∀ (ti : TransferInfo) (w : List (String × Nat)) (frames : List Frame),
        ti.status = TStatus.transferring →
        (runTransferLoop ti w frames).1.status = TStatus.transferring ∨
        (runTransferLoop ti w frames).1.status = TStatus.completed ∨
        (runTransferLoop ti w frames).1.status = TStatus.failed)
    ∧ (∀ ti : TransferInfo,
        cancel_transfer (some ti) = (some { ti with status := TStatus.cancelled }, true))
    ∧ cancel_transfer none = (none, false) := by
  refine ⟨?_, fun _ => rfl, rfl⟩
  intro ti w frames
  induction frames generalizing ti w with
  | nil => intro h; exact Or.inl h
  | cons f rest ih =>
    intro h
    cases f with
    | malformed => exact Or.inl h
    | badFileHeader => exact Or.inr (Or.inr rfl)
    | complete => exact Or.inr (Or.inl rfl)
    | other => exact ih ti w h
    | file name size delivered =>
      show (runTransferLoop ti w (Frame.file name size delivered :: rest)).1.status = _ ∨ _
      rw [runTransferLoop]
      split
      · exact ih _ _ h
      · exact Or.inl h

/-- C7 witness: a `transferring` entry that receives a `complete` header
ends `completed`, and cancelling an existing entry flips it to `cancelled`. -/
theorem C7_witness :
    tiTransferring.status = TStatus.transferring ∧
    ((runTransferLoop tiTransferring [] [Frame.complete]).1.status = TStatus.transferring ∨
     (runTransferLoop tiTransferring [] [Frame.complete]).1.status = TStatus.completed ∨
     (runTransferLoop tiTransferring [] [Frame.complete]).1.status = TStatus.failed) ∧
    cancel_transfer (some tiTransferring) =
      (some { tiTransferring with status := TStatus.cancelled }, true) := by
  exact ⟨rfl, C7_status_transitions.1 tiTransferring [] [Frame.complete] rfl,
    C7_status_transitions.2.1 tiTransferring⟩

/-! ### DeviceManager (`pc-app-windows/app/network/device_manager.py`)

The live `clients` dict (`device_id -> {socket, address, info,
last_heartbeat, connected_time}`) is an insertion-ordered association list
of socket-free `ClientRec`s.  `_heartbeat_monitor` ticks and inbound
messages (which refresh `last_heartbeat` unconditionally) act on it. -/

/-- One entry of `DeviceManager.clients` (socket omitted). -/
structure ClientRec where
  addressIp : String
  addressPort : Nat
  info : DeviceData
  last_heartbeat : ℚ
  connected_time : ℚ
  deriving DecidableEq, Repr

/-- The live device registry. -/
abbrev Registry := List (String × ClientRec)

/-- Dict lookup `clients[device_id]` (first matching key). -/
def lookupClient (id : String) : Registry → Option ClientRec
  | [] => none
  | (k, r) :: rest => if k = id then some r else lookupClient id rest

/-- `self.clients[device_id]["last_heartbeat"] = time.time()`: refresh the
heartbeat timestamp of a registered device (no-op for unknown ids). -/
def updateHeartbeat (id : String) (now : ℚ) : Registry → Registry
  | [] => []
  | (k, r) :: rest =>
      if k = id then (k, { r with last_heartbeat := now }) :: updateHeartbeat id now rest
      else (k, r) :: updateHeartbeat id now rest

/-- One tick of `_heartbeat_monitor` (lines 265–303): every device with
`now - last_heartbeat > heartbeat_timeout` has its socket closed and is
removed; the ids so evicted are returned alongside the surviving registry
(each survivor is then sent a `heartbeat` message). -/
def monitorTick (now timeout : ℚ) (clients : Registry) : Registry × List String :=
  (clients.filter (fun c => !(decide (now - c.2.last_heartbeat > timeout))),
   (clients.filter (fun c => decide (now - c.2.last_heartbeat > timeout))).map (·.1))

/-- A network-visible event acting on the registry: an inbound message from
a device (any command — the read loop refreshes `last_heartbeat` before
dispatching) or a heartbeat-monitor tick. -/
inductive NetEv
  | msg (id : String) (t : ℚ)
  | tick (t : ℚ)
  deriving DecidableEq, Repr

/-- How one event transforms the registry (timeout fixed at construction,
default 60). -/
def stepEv (timeout : ℚ) (clients : Registry) : NetEv → Registry
  | NetEv.msg id t => updateHeartbeat id t clients
  | NetEv.tick t => (monitorTick t timeout clients).1

/-- Run a sequence of events over the registry. -/
def runEvents (timeout : ℚ) (clients : Registry) (evs : List NetEv) : Registry :=
  evs.foldl (stepEv timeout) clients

/-- The liveness condition for device `d` whose current `last_heartbeat` is
`last`: every tick in the event sequence arrives within `timeout` of the
latest inbound message from `d` (messages from other devices do not help). -/
def keepsAlive (timeout : ℚ) (d : String) (last : ℚ) : List NetEv → Prop
  | [] => True
  | NetEv.msg i t :: evs => keepsAlive timeout d (if i = d then t else last) evs
  | NetEv.tick t :: evs => t - last ≤ timeout ∧ keepsAlive timeout d last evs

theorem lookupClient_updateHeartbeat (d i : String) (t : ℚ) :
    ∀ cl : Registry, lookupClient d (updateHeartbeat i t cl) =
      (lookupClient d cl).map
        (fun r => if i = d then { r with last_heartbeat := t } else r) := by
  intro cl
  induction cl with
  | nil => rfl
  | cons c rest ih =>
    obtain ⟨k, r⟩ := c
    by_cases hk : k = i
    · subst hk
      simp only [updateHeartbeat, if_pos rfl, lookupClient]
      by_cases hd : k = d
      · subst hd
        simp
      · simp only [if_neg hd, ih]
    · simp only [updateHeartbeat, if_neg hk, lookupClient]
      by_cases hd : k = d
      · subst hd
        have : ¬ i = k := fun h => hk h.symm
        simp [this]
      · simp only [if_neg hd, ih]

theorem lookupClient_filter (d : String) (p : String × ClientRec → Bool) :
    ∀ (cl : Registry) (r : ClientRec), lookupClient d cl = some r → p (d, r) = true →
      lookupClient d (cl.filter p) = some r := by
  intro cl
  induction cl with
  | nil => intro r h; exact absurd h (by simp [lookupClient])
  | cons c rest ih =>
    intro r h hp
    obtain ⟨k, cr⟩ := c
    simp only [lookupClient] at h
    rw [List.filter_cons]
    by_cases hd : k = d
    · rw [if_pos hd] at h
      injection h with hcr
      subst hcr
      split
      · simp only [lookupClient, if_pos hd]
      · rename_i hpk
        rw [hd] at hpk
        exact absurd hp (by simpa using hpk)
    · rw [if_neg hd] at h
      split
      · simp only [lookupClient, if_neg hd]
        exact ih r h hp
      · exact ih r h hp

theorem lookupClient_eq_none (d : String) :
    ∀ cl : Registry, d ∉ cl.map Prod.fst → lookupClient d cl = none := by
  intro cl
  induction cl with
  | nil => intro _; rfl
  | cons c rest ih =>
    intro h
    obtain ⟨k, cr⟩ := c
    have hk : ¬(k = d) := by
      intro he
      exact h (by simp [he])
    simp only [lookupClient, if_neg hk]
    exact ih (fun hm => h (by simp at hm ⊢; exact Or.inr hm))

theorem lookupClient_filter_of_none (d : String) (p : String × ClientRec → Bool) :
    ∀ cl : Registry, lookupClient d cl = none → lookupClient d (cl.filter p) = none := by
  intro cl
  induction cl with
  | nil => intro _; rfl
  | cons c rest ih =>
    intro h
    obtain ⟨k, cr⟩ := c
    simp only [lookupClient] at h
    rw [List.filter_cons]
    by_cases hd : k = d
    · rw [if_pos hd] at h
      exact absurd h (by simp)
    · rw [if_neg hd] at h
      split
      · simp only [lookupClient, if_neg hd]
        exact ih h
      · exact ih h

theorem lookupClient_filter_none (d : String) (p : String × ClientRec → Bool) :
    ∀ cl : Registry, (cl.map Prod.fst).Nodup → ∀ r : ClientRec,
      lookupClient d cl = some r → p (d, r) = false →
      lookupClient d (cl.filter p) = none := by
  intro cl
  induction cl with
  | nil => intro _ r h; exact absurd h (by simp [lookupClient])
  | cons c rest ih =>
    intro hnd r h hp
    obtain ⟨k, cr⟩ := c
    have hnd' : (rest.map Prod.fst).Nodup := (List.nodup_cons.mp (by simpa using hnd)).2
    have hkmem : k ∉ rest.map Prod.fst := (List.nodup_cons.mp (by simpa using hnd)).1
    simp only [lookupClient] at h
    rw [List.filter_cons]
    by_cases hd : k = d
    · rw [if_pos hd] at h
      injection h with hcr
      subst hcr
      split
      · rename_i hpk
        rw [hd] at hpk
        rw [hp] at hpk
        exact absurd hpk (by simp)
      · apply lookupClient_filter_of_none
        apply lookupClient_eq_none
        rw [← hd]
        exact hkmem
    · rw [if_neg hd] at h
      split
      · simp only [lookupClient, if_neg hd]
        exact ih hnd' r h hp
      · exact ih hnd' r h hp

theorem mem_filter_keys (d : String) (p : String × ClientRec → Bool) :
    ∀ (cl : Registry) (r : ClientRec), lookupClient d cl = some r → p (d, r) = true →
      d ∈ (cl.filter p).map Prod.fst := by
  intro cl
  induction cl with
  | nil => intro r h; exact absurd h (by simp [lookupClient])
  | cons c rest ih =>
    intro r h hp
    obtain ⟨k, cr⟩ := c
    simp only [lookupClient] at h
    rw [List.filter_cons]
    by_cases hd : k = d
    · rw [if_pos hd] at h
      injection h with hcr
      subst hcr
      rw [hd, hp]
      simp
    · rw [if_neg hd] at h
      split
      · simp only [List.map_cons]
        exact List.mem_cons_of_mem _ (ih r h hp)
      · exact ih r h hp

theorem keepsAlive_run (timeout : ℚ) (d : String) :
    ∀ (evs : List NetEv) (cl : Registry) (r : ClientRec),
      lookupClient d cl = some r → keepsAlive timeout d r.last_heartbeat evs →
      ∃ r' : ClientRec, lookupClient d (runEvents timeout cl evs) = some r' := by
  intro evs
  induction evs with
  | nil => intro cl r h _; exact ⟨r, h⟩
  | cons e rest ih =>
    intro cl r h hk
    cases e with
    | msg i t =>
      have hstep : lookupClient d (updateHeartbeat i t cl) =
          some (if i = d then { r with last_heartbeat := t } else r) := by
        rw [lookupClient_updateHeartbeat, h]
        rfl
      by_cases hid : i = d
      · rw [if_pos hid] at hstep
        have hk' : keepsAlive timeout d t rest := by
          simpa [keepsAlive, hid] using hk
        exact ih (updateHeartbeat i t cl) _ hstep hk'
      · simp only [if_neg hid] at hstep
        have hk' : keepsAlive timeout d r.last_heartbeat rest := by
          simpa [keepsAlive, hid] using hk
        exact ih (updateHeartbeat i t cl) r hstep hk'
    | tick t =>
      obtain ⟨hle, hk'⟩ := hk
      have hsurv : lookupClient d (monitorTick t timeout cl).1 = some r := by
        apply lookupClient_filter d _ cl r h
        simp only [Bool.not_eq_true']
        rw [decide_eq_false_iff_not]
        exact not_lt.mpr hle
      exact ih _ r hsurv hk'

/-- A concrete one-device registry used in the C4 theorems: device `d`
registered with `last_heartbeat = 0`. -/
def exRegistry : Registry :=
  [("d", { addressIp := "10.0.0.2", addressPort := 43210, info := [],
           last_heartbeat := 0, connected_time := 0 })]

/-- C4 counterexample: at a tick exactly `heartbeat_timeout` after the last
heartbeat (`now - last_heartbeat = 60 ≥ 60`), the monitor's strict
comparison `>` keeps the device registered, contradicting the claim that a
gap `≥ heartbeat_timeout` evicts it on the next tick. -/
theorem C4_counterexample :
    (60 : ℚ) - 0 ≥ 60 ∧
    lookupClient "d" (monitorTick 60 60 exRegistry).1 =
      some { addressIp := "10.0.0.2", addressPort := 43210, info := [],
             last_heartbeat := 0, connected_time := 0 } ∧
    (monitorTick 60 60 exRegistry).2 = [] := by
  refine ⟨by norm_num, ?_, ?_⟩
  · norm_num [monitorTick, exRegistry, List.filter, lookupClient]
  · norm_num [monitorTick, exRegistry, List.filter]

/-- C4 (amended): the eviction test is strict. (a) For every device and
every event sequence in which each monitor tick arrives within
`heartbeat_timeout` (inclusive) of the device's latest inbound message, the
device remains in the live registry (inbound messages refresh
`last_heartbeat` unconditionally). (b) Whenever a tick occurs with
`now - last_heartbeat > heartbeat_timeout` (strictly), that tick closes the
device's socket and removes it from the registry (assuming the registry has
at most one entry per id, as a Python dict does). -/
theorem C4_heartbeat_monitor :
    (∀ (timeout : ℚ) (d : String) (evs : List NetEv) (cl : Registry) (r : ClientRec),
        lookupClient d cl = some r → keepsAlive timeout d r.last_heartbeat evs →
        ∃ r' : ClientRec, lookupClient d (runEvents timeout cl evs) = some r')
    ∧ (∀ (timeout now : ℚ) (d : String) (cl : Registry) (r : ClientRec),
        (cl.map Prod.fst).Nodup →
        lookupClient d cl = some r → now - r.last_heartbeat > timeout →
        lookupClient d (monitorTick now timeout cl).1 = none ∧
        d ∈ (monitorTick now timeout cl).2) := by
  constructor
  · intro timeout d evs cl r h hk
    exact keepsAlive_run timeout d evs cl r h hk
  · intro timeout now d cl r hnd h hgt
    constructor
    · apply lookupClient_filter_none d _ cl hnd r h
      simp only [Bool.not_eq_eq_eq_not, Bool.not_false, decide_eq_true_eq]
      exact hgt
    · apply mem_filter_keys d _ cl r h
      exact decide_eq_true hgt

/-- C4 witness: device `d` (last heartbeat 0) survives a message at 40
followed by a tick at 50 with timeout 60; a device whose gap is 61 > 60 is
evicted by the tick and appears in the removal list. -/
theorem C4_witness :
    (∃ r' : ClientRec,
        lookupClient "d" (runEvents 60 exRegistry [NetEv.msg "d" 40, NetEv.tick 50])
          = some r') ∧
    lookupClient "d" (monitorTick 61 60 exRegistry).1 = none ∧
    "d" ∈ (monitorTick 61 60 exRegistry).2 := by
  refine ⟨?_, ?_⟩
  · apply C4_heartbeat_monitor.1 60 "d" [NetEv.msg "d" 40, NetEv.tick 50] exRegistry
      { addressIp := "10.0.0.2", addressPort := 43210, info := [],
        last_heartbeat := 0, connected_time := 0 } rfl
    norm_num [keepsAlive]
  · exact C4_heartbeat_monitor.2 60 61 "d" exRegistry
      { addressIp := "10.0.0.2", addressPort := 43210, info := [],
        last_heartbeat := 0, connected_time := 0 }
      (by simp [exRegistry]) rfl (by norm_num)

/-- The parsed first message of a control connection
(`device_registration` in `_handle_client`); `command`/`device_id`/`data`
are `dict.get` results, absent keys being `none`. -/
structure ControlMsg where
  command : Option String
  device_id : Option String
  data : Option DeviceData
  deriving DecidableEq, Repr

/-- The fallback identifier `f"unknown_{addr[0]}_{addr[1]}"`. -/
def synthesizedId (ip : String) (port : Nat) : String :=
  "unknown_" ++ ip ++ "_" ++ Nat.repr port

/-- The registration phase of `DeviceManager._handle_client` (lines
96–124): an invalid first message (anything but `register_device`) closes
the connection without reply (`none`); otherwise the device id — explicit,
or synthesized from the socket address — is entered into `clients` with
fresh heartbeat/connect timestamps, and the id is returned for the
steady-state loop. -/
def handleRegistration (msg : ControlMsg) (ip : String) (port : Nat) (now : ℚ)
    (clients : Registry) : Option (String × Registry) :=
  if msg.command = some "register_device" then
    let did := msg.device_id.getD (synthesizedId ip port)
    some (did,
      dictInsert did
        { addressIp := ip, addressPort := port, info := msg.data.getD [],
          last_heartbeat := now, connected_time := now } clients)
  else none

/-- C10: a `register_device` first message with no `device_id` field is not
rejected: the device is registered under `unknown_<peer-ip>_<peer-port>`
and handled exactly as if that identifier had been sent explicitly. -/
theorem C10_register_without_device_id
    (msg : ControlMsg) (ip : String) (port : Nat) (now : ℚ) (clients : Registry)
    (hcmd : msg.command = some "register_device") (hid : msg.device_id = none) :
    handleRegistration msg ip port now clients =
      some (synthesizedId ip port,
        dictInsert (synthesizedId ip port)
          { addressIp := ip, addressPort := port, info := msg.data.getD [],
            last_heartbeat := now, connected_time := now } clients) ∧
    handleRegistration msg ip port now clients ≠ none ∧
    handleRegistration msg ip port now clients =
      handleRegistration { msg with device_id := some (synthesizedId ip port) }
        ip port now clients := by
  refine ⟨?_, ?_, ?_⟩
  · simp [handleRegistration, hcmd, hid]
  · simp [handleRegistration, hcmd]
  · simp [handleRegistration, hcmd, hid]

/-- C10 witness: a concrete registration message lacking `device_id`, from
peer `192.168.0.7:50321`, is registered as `unknown_192.168.0.7_50321`. -/
theorem C10_witness :
    ({ command := some "register_device", device_id := none,
       data := some [("device_type", "android")] } : ControlMsg).command
        = some "register_device" ∧
    handleRegistration
        { command := some "register_device", device_id := none,
          data := some [("device_type", "android")] } "192.168.0.7" 50321 7 [] =
      some ("unknown_192.168.0.7_50321",
        [("unknown_192.168.0.7_50321",
          { addressIp := "192.168.0.7", addressPort := 50321,
            info := [("device_type", "android")],
            last_heartbeat := 7, connected_time := 7 })]) := by
  refine ⟨rfl, ?_⟩
  have h := (C10_register_without_device_id
    { command := some "register_device", device_id := none,
      data := some [("device_type", "android")] } "192.168.0.7" 50321 7 [] rfl rfl).1
  rw [h]
  rfl

/-! ### GSRHandler (`pc-app-windows/app/sensors/gsr_handler.py`)

`data_queue = queue.Queue(maxsize=1000)` is a FIFO list (head = oldest);
`_process_gsr_data` is a pure state transformer (callback fan-out elided —
it does not touch the queue or the statistics). -/

/-- One produced GSR sample dict (fields relevant to queue/statistics). -/
structure GSRSample where
  timestamp : ℚ
  gsr_value : ℚ
  deriving DecidableEq, Repr

/-- The queue/statistics state of `GSRHandler`. -/
structure GSRState where
  data_queue : List GSRSample
  total_samples : Nat
  latest_data : Option GSRSample
  last_sample_time : Option ℚ
  deriving DecidableEq, Repr

/-- `GSRHandler.__init__`: empty bounded queue, zeroed statistics. -/
def GSRState.init : GSRState :=
  { data_queue := [], total_samples := 0, latest_data := none, last_sample_time := none }

/-- The queue capacity `maxsize=1000`. -/
def gsrQueueMaxsize : Nat := 1000

/-- `GSRHandler._process_gsr_data` (lines 505–532): statistics always
advance; `put_nowait` succeeds while the queue is below capacity, otherwise
`queue.Full` is caught, the oldest sample is removed with `get_nowait` and
the new sample enqueued. -/
def _process_gsr_data (st : GSRState) (d : GSRSample) : GSRState :=
  { st with
      total_samples := st.total_samples + 1
      last_sample_time := some d.timestamp
      latest_data := some d
      data_queue :=
        if st.data_queue.length < gsrQueueMaxsize then st.data_queue ++ [d]
        else st.data_queue.tail ++ [d] }

theorem process_gsr_data_length_le (st : GSRState) (d : GSRSample)
    (h : st.data_queue.length ≤ gsrQueueMaxsize) :
    (_process_gsr_data st d).data_queue.length ≤ gsrQueueMaxsize := by
  show (if st.data_queue.length < gsrQueueMaxsize then st.data_queue ++ [d]
        else st.data_queue.tail ++ [d]).length ≤ gsrQueueMaxsize
  split
  · rename_i hlt
    rw [List.length_append]
    simpa using hlt
  · rename_i hge
    rw [List.length_append, List.length_tail]
    have hq : gsrQueueMaxsize = 1000 := rfl
    have hone : ([d] : List GSRSample).length = 1 := rfl
    omega

/-- C8: the capture queue is bounded by its fixed capacity 1000 — both along
every run from the initial state and as a preserved invariant — and a sample
produced at full capacity drops exactly the oldest sample (the head), is
enqueued at the back, and still advances `total_samples` by exactly one. -/
theorem C8_capture_queue_bounded :
    (∀ samples : List GSRSample,
        ((samples.foldl _process_gsr_data GSRState.init).data_queue.length
          ≤ gsrQueueMaxsize))
    ∧ (∀ (st : GSRState) (d : GSRSample), st.data_queue.length ≤ gsrQueueMaxsize →
        ((_process_gsr_data st d).data_queue.length ≤ gsrQueueMaxsize ∧
         (_process_gsr_data st d).total_samples = st.total_samples + 1 ∧
         (st.data_queue.length = gsrQueueMaxsize →
            (_process_gsr_data st d).data_queue = st.data_queue.tail ++ [d]) ∧
         (st.data_queue.length < gsrQueueMaxsize →
            (_process_gsr_data st d).data_queue = st.data_queue ++ [d]))) := by
  constructor
  · intro samples
    have : ∀ (l : List GSRSample) (st : GSRState),
        st.data_queue.length ≤ gsrQueueMaxsize →
        (l.foldl _process_gsr_data st).data_queue.length ≤ gsrQueueMaxsize := by
      intro l
      induction l with
      | nil => intro st h; exact h
      | cons d rest ih =>
        intro st h
        exact ih (_process_gsr_data st d) (process_gsr_data_length_le st d h)
    exact this samples GSRState.init (by norm_num [GSRState.init, gsrQueueMaxsize])
  · intro st d h
    refine ⟨process_gsr_data_length_le st d h, rfl, ?_, ?_⟩
    · intro hfull
      show (if st.data_queue.length < gsrQueueMaxsize then st.data_queue ++ [d]
            else st.data_queue.tail ++ [d]) = st.data_queue.tail ++ [d]
      rw [if_neg (by omega)]
    · intro hlt
      show (if st.data_queue.length < gsrQueueMaxsize then st.data_queue ++ [d]
            else st.data_queue.tail ++ [d]) = st.data_queue ++ [d]
      rw [if_pos hlt]

/-- C8 witness: from the empty initial queue, one produced sample is bounded
by capacity, enqueued at the back and counted. -/
theorem C8_witness :
    GSRState.init.data_queue.length ≤ gsrQueueMaxsize ∧
    (_process_gsr_data GSRState.init { timestamp := 1, gsr_value := 2 }).data_queue.length
      ≤ gsrQueueMaxsize ∧
    (_process_gsr_data GSRState.init { timestamp := 1, gsr_value := 2 }).total_samples
      = GSRState.init.total_samples + 1 ∧
    (_process_gsr_data GSRState.init { timestamp := 1, gsr_value := 2 }).data_queue
      = GSRState.init.data_queue ++ [{ timestamp := 1, gsr_value := 2 }] := by
  have h0 : GSRState.init.data_queue.length ≤ gsrQueueMaxsize := by
    norm_num [GSRState.init, gsrQueueMaxsize]
  have h := C8_capture_queue_bounded.2 GSRState.init { timestamp := 1, gsr_value := 2 } h0
  exact ⟨h0, h.1, h.2.1, h.2.2.2 (by norm_num [GSRState.init, gsrQueueMaxsize])⟩

/-! ### Time synchronisation (`windows/app/time_sync_utils.py`)

Timestamps are integers (milliseconds); Python `//` is `Int.fdiv`, the final
`sum(...)/len(...)` and `min(...)/2` are exact divisions in `ℚ`.  The
`ping_func`/`pong_handler` callbacks of `perform_ntp_like_sync` deliver, per
exchange, the triple (local send, local receive, remote) which we pass in as
a list of `PingSample`s.  Python's `float('inf')` error margin is modelled
as `none`. -/

/-- `calculate_offset`. -/
def calculate_offset (local_timestamp reference_timestamp : ℤ) : ℤ :=
  reference_timestamp - local_timestamp

/-- `convert_to_reference_time` (time-sync module version). -/
def convert_to_reference_time (local_timestamp offset : ℤ) : ℤ :=
  local_timestamp + offset

/-- `calculate_round_trip_time`. -/
def calculate_round_trip_time (ping_timestamp pong_timestamp : ℤ) : ℤ :=
  pong_timestamp - ping_timestamp

/-- `estimate_one_way_latency`: `round_trip_time // 2`. -/
def estimate_one_way_latency (round_trip_time : ℤ) : ℤ :=
  Int.fdiv round_trip_time 2

/-- `calculate_adjusted_offset`. -/
def calculate_adjusted_offset (local_timestamp reference_timestamp one_way_latency : ℤ) : ℤ :=
  reference_timestamp - local_timestamp - one_way_latency

/-- One ping/pong exchange as observed by the callbacks. -/
structure PingSample where
  local_send_time : ℤ
  local_receive_time : ℤ
  remote_time : ℤ
  deriving DecidableEq, Repr

/-- The loop body's `rtt`. -/
def sampleRtt (s : PingSample) : ℤ :=
  calculate_round_trip_time s.local_send_time s.local_receive_time

/-- The loop body's `offset`:
`calculate_adjusted_offset(local_send_time + one_way, remote_time, 0)`. -/
def sampleOffset (s : PingSample) : ℤ :=
  calculate_adjusted_offset
    (s.local_send_time + estimate_one_way_latency (sampleRtt s)) s.remote_time 0

/-- Stable insertion into a list kept ascending in the second component:
a new element goes after every element with a key `≤` its own. -/
def insertByRtt (x : ℤ × ℤ) : List (ℤ × ℤ) → List (ℤ × ℤ)
  | [] => [x]
  | y :: ys => if y.2 ≤ x.2 then y :: insertByRtt x ys else x :: y :: ys

/-- `valid_samples.sort(key=lambda x: x[1])` — Python's sort is stable and
ascending, which insertion in arrival order reproduces exactly. -/
def sortByRtt (l : List (ℤ × ℤ)) : List (ℤ × ℤ) :=
  l.foldl (fun acc x => insertByRtt x acc) []

/-- Python `min` over a list; the `[]` default is unreachable at the use
site, which is guarded by `if valid_samples`. -/
def listMinInt : List ℤ → ℤ
  | [] => 0
  | x :: xs => xs.foldl min x

/-- `perform_ntp_like_sync` (lines 75–117): collects `(offset, rtt)` per
exchange, sorts by round-trip time, keeps the best `max(1, n // 2)` samples,
and returns their mean offset with half the best round-trip time as error
margin; with no samples it returns `(0, float('inf'))` — here `(0, none)`. -/
def perform_ntp_like_sync (samples : List PingSample) : ℚ × Option ℚ :=
  let valid := samples.map (fun s => (sampleOffset s, sampleRtt s))
  let sorted := sortByRtt valid
  if sorted.isEmpty then (0, none)
  else
    let best := sorted.take (max 1 (sorted.length / 2))
    ((((best.map Prod.fst).sum : ℤ) : ℚ) / ((best.length : ℕ) : ℚ),
     some (((listMinInt (best.map Prod.snd) : ℤ) : ℚ) / 2))

theorem insertByRtt_const (r : ℤ) (x : ℤ × ℤ) (hx : x.2 = r) :
    ∀ l : List (ℤ × ℤ), (∀ y ∈ l, y.2 = r) → insertByRtt x l = l ++ [x] := by
  intro l
  induction l with
  | nil => intro _; rfl
  | cons y ys ih =>
    intro h
    have hy : y.2 = r := h y (by simp)
    show (if y.2 ≤ x.2 then y :: insertByRtt x ys else x :: y :: ys) = (y :: ys) ++ [x]
    rw [if_pos (by rw [hx, hy])]
    rw [ih (fun z hz => h z (by simp [hz]))]
    rfl

theorem sortByRtt_const_aux (r : ℤ) :
    ∀ l acc : List (ℤ × ℤ), (∀ y ∈ acc, y.2 = r) → (∀ y ∈ l, y.2 = r) →
      l.foldl (fun acc x => insertByRtt x acc) acc = acc ++ l := by
  intro l
  induction l with
  | nil => intro acc _ _; simp
  | cons x xs ih =>
    intro acc hacc hl
    have hx : x.2 = r := hl x (by simp)
    show xs.foldl (fun acc x => insertByRtt x acc) (insertByRtt x acc) = acc ++ x :: xs
    rw [insertByRtt_const r x hx acc hacc]
    rw [ih (acc ++ [x])
      (by
        intro y hy
        rcases List.mem_append.mp hy with hy | hy
        · exact hacc y hy
        · simp at hy; rw [hy, hx])
      (fun y hy => hl y (by simp [hy]))]
    simp

/-- Sorting by round-trip time leaves a constant-key list in its original
order (stability). -/
theorem sortByRtt_const (r : ℤ) (l : List (ℤ × ℤ)) (h : ∀ y ∈ l, y.2 = r) :
    sortByRtt l = l := by
  have := sortByRtt_const_aux r l [] (by simp) h
  simpa [sortByRtt] using this

theorem listMinInt_const (r : ℤ) :
    ∀ l : List ℤ, l ≠ [] → (∀ y ∈ l, y = r) → listMinInt l = r := by
  intro l
  induction l with
  | nil => intro h; exact absurd rfl h
  | cons x xs _ =>
    intro _ h
    have hx : x = r := h x (by simp)
    show xs.foldl min x = r
    subst hx
    have : ∀ ys : List ℤ, (∀ y ∈ ys, y = x) → ys.foldl min x = x := by
      intro ys
      induction ys with
      | nil => intro _; rfl
      | cons z zs ihz =>
        intro hz
        have : z = x := hz z (by simp)
        subst this
        show zs.foldl min (min z z) = z
        rw [min_self]
        exact ihz (fun y hy => hz y (by simp [hy]))
    exact this xs (fun y hy => h y (by simp [hy]))

/-- C6 counterexample: two samples with the same round-trip time (10) but
different computed offsets (0 and 2).  The best half is the single first
sample, so the returned offset is 0, not the mean 1 of all the per-sample
offsets as the claim requires. -/
theorem C6_counterexample :
    sampleRtt { local_send_time := 0, local_receive_time := 10, remote_time := 5 } =
      sampleRtt { local_send_time := 100, local_receive_time := 110, remote_time := 107 } ∧
    (perform_ntp_like_sync
        [{ local_send_time := 0, local_receive_time := 10, remote_time := 5 },
         { local_send_time := 100, local_receive_time := 110, remote_time := 107 }]).1 ≠
      (((sampleOffset { local_send_time := 0, local_receive_time := 10, remote_time := 5 } +
         sampleOffset { local_send_time := 100, local_receive_time := 110,
                        remote_time := 107 } : ℤ)) : ℚ) / ((2 : ℕ) : ℚ) := by
  constructor
  · rfl
  · have hL : (perform_ntp_like_sync
        [{ local_send_time := 0, local_receive_time := 10, remote_time := 5 },
         { local_send_time := 100, local_receive_time := 110, remote_time := 107 }]).1 =
        ((0 : ℤ) : ℚ) / ((1 : ℕ) : ℚ) := rfl
    have h1 : sampleOffset
        { local_send_time := 0, local_receive_time := 10, remote_time := 5 } = 0 := rfl
    have h2 : sampleOffset
        { local_send_time := 100, local_receive_time := 110, remote_time := 107 } = 2 := rfl
    rw [hL, h1, h2]
    push_cast
    norm_num

/-- C6 (amended): with zero samples `perform_ntp_like_sync` returns offset 0
and an infinite error margin; with N samples of identical round-trip time r
it returns the mean of the offsets of the *first* `max(1, N // 2)` samples
(the stable sort keeps them in arrival order, and only this best half is
averaged — not all N), and the error margin is half the common (hence best)
round-trip time. -/
theorem C6_ntp_like_sync :
    perform_ntp_like_sync [] = (0, none) ∧
    (∀ (samples : List PingSample) (r : ℤ), samples ≠ [] →
      (∀ s ∈ samples, sampleRtt s = r) →
      perform_ntp_like_sync samples =
        (((((samples.map sampleOffset).take (max 1 (samples.length / 2))).sum : ℤ) : ℚ) /
           ((max 1 (samples.length / 2) : ℕ) : ℚ),
         some ((r : ℚ) / 2))) := by
  constructor
  · rfl
  · intro samples r hne hr
    have hvalid : ∀ y ∈ samples.map (fun s => (sampleOffset s, sampleRtt s)), y.2 = r := by
      intro y hy
      rcases List.mem_map.mp hy with ⟨s, hs, rfl⟩
      exact hr s hs
    show (let valid := samples.map (fun s => (sampleOffset s, sampleRtt s))
          let sorted := sortByRtt valid
          if sorted.isEmpty then ((0 : ℚ), (none : Option ℚ))
          else
            let best := sorted.take (max 1 (sorted.length / 2))
            ((((best.map Prod.fst).sum : ℤ) : ℚ) / ((best.length : ℕ) : ℚ),
             some (((listMinInt (best.map Prod.snd) : ℤ) : ℚ) / 2))) = _
    simp only [sortByRtt_const r _ hvalid]
    have hnonempty : (samples.map (fun s => (sampleOffset s, sampleRtt s))).isEmpty = false := by
      cases samples with
      | nil => exact absurd rfl hne
      | cons a as => rfl
    rw [hnonempty]
    simp only [Bool.false_eq_true, if_false, List.length_map]
    set k := max 1 (samples.length / 2) with hk
    have hlen : 1 ≤ samples.length := by
      cases samples with
      | nil => exact absurd rfl hne
      | cons a as => simp
    have hkle : k ≤ samples.length := by
      rw [hk]
      have : samples.length / 2 ≤ samples.length := Nat.div_le_self _ _
      omega
    have hmapfst :
        ((samples.map (fun s => (sampleOffset s, sampleRtt s))).take k).map Prod.fst =
          (samples.map sampleOffset).take k := by
      rw [← List.map_take, List.map_map, ← List.map_take]
      rfl
    have hlenbest :
        (((samples.map (fun s => (sampleOffset s, sampleRtt s))).take k)).length = k := by
      rw [List.length_take, List.length_map]
      omega
    have hmin :
        listMinInt (((samples.map (fun s => (sampleOffset s, sampleRtt s))).take k).map
          Prod.snd) = r := by
      apply listMinInt_const
      · intro habs
        have : (((samples.map (fun s => (sampleOffset s, sampleRtt s))).take k).map
            Prod.snd).length = 0 := by rw [habs]; rfl
        rw [List.length_map, hlenbest] at this
        omega
      · intro y hy
        rcases List.mem_map.mp hy with ⟨z, hz, rfl⟩
        exact hvalid z (List.mem_of_mem_take hz)
    rw [hmapfst, hlenbest, hmin]

/-- C6 witness: zero samples give `(0, ∞)`; one sample of round-trip time 10
and offset 0 gives the mean of the first `max(1, 0)` = 1 offsets and error
margin 5. -/
theorem C6_witness :
    perform_ntp_like_sync [] = (0, none) ∧
    ([{ local_send_time := 0, local_receive_time := 10, remote_time := 5 }] :
        List PingSample) ≠ [] ∧
    (∀ s ∈ ([{ local_send_time := 0, local_receive_time := 10, remote_time := 5 }] :
        List PingSample), sampleRtt s = 10) ∧
    perform_ntp_like_sync
        [{ local_send_time := 0, local_receive_time := 10, remote_time := 5 }] =
      ((((([{ local_send_time := 0, local_receive_time := 10, remote_time := 5 }].map
            sampleOffset).take (max 1 (1 / 2))).sum : ℤ) : ℚ) /
         ((max 1 (1 / 2) : ℕ) : ℚ),
       some (((10 : ℤ) : ℚ) / 2)) := by
  have hne : ([{ local_send_time := 0, local_receive_time := 10, remote_time := 5 }] :
      List PingSample) ≠ [] := by simp
  have hr : ∀ s ∈ ([{ local_send_time := 0, local_receive_time := 10, remote_time := 5 }] :
      List PingSample), sampleRtt s = 10 := by
    intro s hs
    simp at hs
    rw [hs]
    rfl
  exact ⟨C6_ntp_like_sync.1, hne, hr,
    C6_ntp_like_sync.2
      [{ local_send_time := 0, local_receive_time := 10, remote_time := 5 }] 10 hne hr⟩

/-! ### Data alignment (`windows/app/data_alignment_utils.py`,
`windows/app/session_info.py`)

`SyncEvent`/`DeviceInfo`/`SessionInfo` mirror the session-info classes
(fields irrelevant to offset computation omitted).  Python's substring test
`device_id in event.type` is `strContains`; dict insertion-order grouping of
events by type is `groupByType`; Python `//` on the accumulated offset is
`Int.fdiv`. -/

/-- A sync event record (`SyncEvent`). -/
structure SyncEvent where
  type : String
  timestamp : ℤ
  deriving DecidableEq, Repr

/-- A device record (`DeviceInfo`), restricted to the fields the offset
computation reads and writes. -/
structure DeviceInfo where
  device_id : String
  device_type : String
  time_offset_ms : ℤ
  deriving DecidableEq, Repr

/-- A session record (`SessionInfo`), restricted likewise. -/
structure SessionInfo where
  devices : List DeviceInfo
  sync_events : List SyncEvent
  deriving DecidableEq, Repr

/-- Substring test on character lists (`needle` occurs inside `hay`). -/
def strContainsAux (need : List Char) : List Char → Bool
  | [] => need.isEmpty
  | c :: cs => need.isPrefixOf (c :: cs) || strContainsAux need cs

/-- Python `needle in hay` on strings. -/
def strContains (hay needle : String) : Bool :=
  strContainsAux needle.data hay.data

/-- `find_event_time_for_device` (lines 76–90): the timestamp of the first
event whose type string contains the device id, else `-1`. -/
def find_event_time_for_device : List SyncEvent → String → ℤ
  | [], _ => -1
  | e :: rest, device_id =>
      if strContains e.type device_id then e.timestamp
      else find_event_time_for_device rest device_id

/-- One step of building `events_by_type`: append to the existing group for
this type, else open a new group at the end (dict insertion order). -/
def insertEventByType : List (String × List SyncEvent) → SyncEvent →
    List (String × List SyncEvent)
  | [], e => [(e.type, [e])]
  | (t, es) :: gs, e =>
      if t = e.type then (t, es ++ [e]) :: gs else (t, es) :: insertEventByType gs e

/-- `events_by_type`: group the session's sync events by exact type string,
in first-seen key order. -/
def groupByType (l : List SyncEvent) : List (String × List SyncEvent) :=
  l.foldl insertEventByType []

/-- Dict lookup `events_by_type[t]` / membership `t in events_by_type`. -/
def lookupGroup (t : String) : List (String × List SyncEvent) → Option (List SyncEvent)
  | [] => none
  | (t', es) :: gs => if t' = t then some es else lookupGroup t gs

/-- The fallback accumulation (lines 62–71): running `(total_offset, count)`
over every event-type group in which both lookups are positive. -/
def fallbackAccum (refId did : String) (gs : List (String × List SyncEvent)) : ℤ × ℕ :=
  gs.foldl
    (fun tc g =>
      let rt := find_event_time_for_device g.2 refId
      let dt := find_event_time_for_device g.2 did
      if rt > 0 ∧ dt > 0 then (tc.1 + (rt - dt), tc.2 + 1) else tc)
    (0, 0)

/-- The per-device body of the `calculate_time_offsets` loop, as the source
computes it: prefer the `"start"` group when both lookups are positive,
otherwise floor-divide (`//`) the accumulated offset by the count when the
count is positive, otherwise leave the device untouched. -/
def computeDeviceOffsetCode (gs : List (String × List SyncEvent)) (refId : String)
    (d : DeviceInfo) : DeviceInfo :=
  let fb :=
    let tc := fallbackAccum refId d.device_id gs
    if tc.2 > 0 then { d with time_offset_ms := Int.fdiv tc.1 (tc.2 : ℤ) } else d
  match lookupGroup "start" gs with
  | some startEvents =>
      let rs := find_event_time_for_device startEvents refId
      let ds := find_event_time_for_device startEvents d.device_id
      if rs > 0 ∧ ds > 0 then { d with time_offset_ms := rs - ds } else fb
  | none => fb

/-- The per-device offset as the claim words it: identical to the source
except that the fallback average uses *truncating* integer division
(`Int.tdiv`) instead of the source's floor division. -/
def claimDeviceOffset (gs : List (String × List SyncEvent)) (refId : String)
    (d : DeviceInfo) : DeviceInfo :=
  let fb :=
    let tc := fallbackAccum refId d.device_id gs
    if tc.2 > 0 then { d with time_offset_ms := Int.tdiv tc.1 (tc.2 : ℤ) } else d
  match lookupGroup "start" gs with
  | some startEvents =>
      let rs := find_event_time_for_device startEvents refId
      let ds := find_event_time_for_device startEvents d.device_id
      if rs > 0 ∧ ds > 0 then { d with time_offset_ms := rs - ds } else fb
  | none => fb

/-- Reference-device selection: the first device with the given id, else the
first device of the session, else nothing. -/
def refIndex (devices : List DeviceInfo) (refId : String) : Option Nat :=
  match devices.findIdx? (fun d => d.device_id == refId) with
  | some i => some i
  | none => if devices.isEmpty then none else some 0

/-- `calculate_time_offsets` (lines 8–74): with no sync events it returns at
once; otherwise it groups the events, picks the reference device (Python's
`device == reference_device` is object identity, i.e. list position), zeroes
the reference offset and computes every other device's offset. -/
def calculate_time_offsets (session : SessionInfo) (reference_device_id : String) :
    SessionInfo :=
  if session.sync_events.isEmpty then session
  else
    match refIndex session.devices reference_device_id with
    | none => session
    | some i =>
        let gs := groupByType session.sync_events
        { session with
            devices :=
              session.devices.enum.map (fun p =>
                if p.1 = i then { p.2 with time_offset_ms := 0 }
                else computeDeviceOffsetCode gs reference_device_id p.2) }

/-- Well-formedness of a group list: every group is non-empty and
homogeneous in its key type. -/
def GroupsWF (gs : List (String × List SyncEvent)) : Prop :=
  ∀ g ∈ gs, g.2 ≠ [] ∧ ∀ e ∈ g.2, e.type = g.1

theorem insertEventByType_wf (gs : List (String × List SyncEvent)) (e : SyncEvent)
    (h : GroupsWF gs) : GroupsWF (insertEventByType gs e) := by
  induction gs with
  | nil =>
    intro g hg
    simp only [insertEventByType, List.mem_singleton] at hg
    subst hg
    refine ⟨by simp, ?_⟩
    intro e' he'
    simp at he'
    rw [he']
  | cons g0 gs ih =>
    obtain ⟨t, es⟩ := g0
    show GroupsWF (if t = e.type then (t, es ++ [e]) :: gs else (t, es) :: insertEventByType gs e)
    split
    · rename_i hte
      intro g hg
      rcases List.mem_cons.mp hg with hg | hg
      · subst hg
        refine ⟨by simp, ?_⟩
        intro e' he'
        rcases List.mem_append.mp he' with he' | he'
        · exact (h (t, es) (by simp)).2 e' he'
        · simp at he'
          rw [he', ← hte]
      · exact h g (by simp [hg])
    · intro g hg
      rcases List.mem_cons.mp hg with hg | hg
      · subst hg
        exact h (t, es) (by simp)
      · exact ih (fun g' hg' => h g' (by simp [hg'])) g hg

theorem groupByType_wf (l : List SyncEvent) : GroupsWF (groupByType l) := by
  have : ∀ (l : List SyncEvent) (gs : List (String × List SyncEvent)),
      GroupsWF gs → GroupsWF (l.foldl insertEventByType gs) := by
    intro l
    induction l with
    | nil => intro gs h; exact h
    | cons e rest ih =>
      intro gs h
      exact ih (insertEventByType gs e) (insertEventByType_wf gs e h)
  exact this l [] (by intro g hg; simp at hg)

theorem find_homog_neg (t id : String) (hns : strContains t id = false) :
    ∀ es : List SyncEvent, (∀ e ∈ es, e.type = t) →
      find_event_time_for_device es id = -1 := by
  intro es
  induction es with
  | nil => intro _; rfl
  | cons e rest ih =>
    intro h
    have he : e.type = t := h e (by simp)
    show (if strContains e.type id then e.timestamp
          else find_event_time_for_device rest id) = -1
    rw [he, hns]
    simp only [Bool.false_eq_true, if_false]
    exact ih (fun e' he' => h e' (by simp [he']))

theorem find_homog (t id : String) (e0 : SyncEvent) (es : List SyncEvent)
    (h : ∀ e ∈ e0 :: es, e.type = t) :
    find_event_time_for_device (e0 :: es) id =
      if strContains t id then e0.timestamp else -1 := by
  have he0 : e0.type = t := h e0 (by simp)
  show (if strContains e0.type id then e0.timestamp
        else find_event_time_for_device es id) = _
  rw [he0]
  cases hc : strContains t id with
  | true => simp
  | false =>
    simp only [Bool.false_eq_true, if_false]
    exact find_homog_neg t id hc es (fun e' he' => h e' (by simp [he']))

/-- Within one event-type group, positive lookups for two device ids always
return the very same (first) event's timestamp. -/
theorem find_homog_eq (t id₁ id₂ : String) (es : List SyncEvent)
    (hne : es ≠ []) (h : ∀ e ∈ es, e.type = t)
    (h₁ : find_event_time_for_device es id₁ > 0)
    (h₂ : find_event_time_for_device es id₂ > 0) :
    find_event_time_for_device es id₁ = find_event_time_for_device es id₂ := by
  cases es with
  | nil => exact absurd rfl hne
  | cons e0 rest =>
    rw [find_homog t id₁ e0 rest h] at h₁ ⊢
    rw [find_homog t id₂ e0 rest h] at h₂ ⊢
    cases hc₁ : strContains t id₁ with
    | false => rw [hc₁] at h₁; simp at h₁
    | true =>
      cases hc₂ : strContains t id₂ with
      | false => rw [hc₂] at h₂; simp at h₂
      | true => rfl

theorem fallbackAccum_total_eq_zero (refId did : String)
    (gs : List (String × List SyncEvent)) (hwf : GroupsWF gs) :
    (fallbackAccum refId did gs).1 = 0 := by
  have : ∀ (gs : List (String × List SyncEvent)) (tc : ℤ × ℕ), GroupsWF gs → tc.1 = 0 →
      (gs.foldl
        (fun tc g =>
          let rt := find_event_time_for_device g.2 refId
          let dt := find_event_time_for_device g.2 did
          if rt > 0 ∧ dt > 0 then (tc.1 + (rt - dt), tc.2 + 1) else tc)
        tc).1 = 0 := by
    intro gs
    induction gs with
    | nil => intro tc _ h0; exact h0
    | cons g rest ih =>
      intro tc hwf h0
      obtain ⟨hgne, hghom⟩ := hwf g (by simp)
      rw [List.foldl_cons]
      apply ih _ (fun g' hg' => hwf g' (by simp [hg']))
      show (if find_event_time_for_device g.2 refId > 0 ∧
              find_event_time_for_device g.2 did > 0
            then (tc.1 + (find_event_time_for_device g.2 refId -
                    find_event_time_for_device g.2 did), tc.2 + 1)
            else tc).1 = 0
      split
      · rename_i hpos
        have := find_homog_eq g.1 refId did g.2 hgne hghom hpos.1 hpos.2
        simp only []
        omega
      · exact h0
  exact this gs (0, 0) hwf rfl

/-- On well-formed groups the source's floor-divided fallback coincides with
the claim's truncated fallback: the accumulated total is always zero. -/
theorem computeDeviceOffset_eq_claim (gs : List (String × List SyncEvent))
    (refId : String) (d : DeviceInfo) (hwf : GroupsWF gs) :
    computeDeviceOffsetCode gs refId d = claimDeviceOffset gs refId d := by
  have htot : (fallbackAccum refId d.device_id gs).1 = 0 :=
    fallbackAccum_total_eq_zero refId d.device_id gs hwf
  simp only [computeDeviceOffsetCode, claimDeviceOffset, htot, Int.zero_fdiv, Int.zero_tdiv]

theorem refIndex_isSome (devices : List DeviceInfo) (refId : String) (h : devices ≠ []) :
    ∃ i, refIndex devices refId = some i := by
  cases hf : devices.findIdx? (fun d => d.device_id == refId) with
  | some i =>
    refine ⟨i, ?_⟩
    unfold refIndex
    rw [hf]
  | none =>
    refine ⟨0, ?_⟩
    unfold refIndex
    rw [hf]
    have he : devices.isEmpty = false := by
      cases devices with
      | nil => exact absurd rfl h
      | cons a l => rfl
    rw [he]
    rfl

/-- A session with devices but no sync events; the reference device carries
a non-zero prior offset. -/
def exNoEventsSession : SessionInfo :=
  { devices := [{ device_id := "A", device_type := "pc", time_offset_ms := 7 }],
    sync_events := [] }

/-- C9 counterexample: with no sync events `calculate_time_offsets` returns
immediately, leaving the reference device's offset at its prior value 7 —
it is not set to 0 as the claim requires. -/
theorem C9_counterexample :
    calculate_time_offsets exNoEventsSession "A" = exNoEventsSession ∧
    (calculate_time_offsets exNoEventsSession "A").devices.map
      DeviceInfo.time_offset_ms = [7] ∧
    (7 : ℤ) ≠ 0 := by
  exact ⟨rfl, rfl, by decide⟩

/-- C9 (amended): provided the session has at least one sync event and at
least one device, `calculate_time_offsets` zeroes the offset of the chosen
reference device (the first with the given id, else the first device) and
gives every other device the offset the claim describes: the `"start"`
event-pair difference when both lookups are positive, otherwise the
integer-truncated average of (reference time − device time) over every
event type whose lookups are positive for both ids (the source's floor
division coincides with truncation here because the two lookups inside one
homogeneous event-type group always return the same first event's
timestamp, making every accumulated difference zero), otherwise the offset
is left unchanged. -/
theorem C9_calculate_time_offsets (session : SessionInfo) (refId : String)
    (hev : session.sync_events ≠ []) (hdev : session.devices ≠ []) :
    ∃ i, refIndex session.devices refId = some i ∧
      calculate_time_offsets session refId =
        { session with
            devices :=
              session.devices.enum.map (fun p =>
                if p.1 = i then { p.2 with time_offset_ms := 0 }
                else claimDeviceOffset (groupByType session.sync_events) refId p.2) } := by
  obtain ⟨i, hi⟩ := refIndex_isSome session.devices refId hdev
  refine ⟨i, hi, ?_⟩
  unfold calculate_time_offsets
  have he : session.sync_events.isEmpty = false := by
    cases h : session.sync_events with
    | nil => exact absurd h hev
    | cons a l => rfl
  rw [he]
  simp only [Bool.false_eq_true, if_false]
  rw [hi]
  show { session with
          devices :=
            session.devices.enum.map (fun p : Nat × DeviceInfo =>
              if p.1 = i then { p.2 with time_offset_ms := 0 }
              else computeDeviceOffsetCode (groupByType session.sync_events) refId p.2) } =
    ({ session with
        devices :=
          session.devices.enum.map (fun p : Nat × DeviceInfo =>
            if p.1 = i then { p.2 with time_offset_ms := 0 }
            else claimDeviceOffset (groupByType session.sync_events) refId p.2) } :
      SessionInfo)
  congr 1
  apply List.map_congr_left
  intro p _
  split
  · rfl
  · exact computeDeviceOffset_eq_claim _ refId p.2 (groupByType_wf _)

/-- A two-device session with a single shared `"start"` sync event. -/
def exAlignSession : SessionInfo :=
  { devices :=
      [{ device_id := "A", device_type := "pc", time_offset_ms := 5 },
       { device_id := "B", device_type := "android", time_offset_ms := 9 }],
    sync_events := [{ type := "start", timestamp := 50 }] }

/-- C9 witness: on the concrete session the reference device `A` (index 0)
is zeroed and `B` is left unchanged — neither id occurs in the type string
`"start"`, so both lookups are `-1` and no event type contributes. -/
theorem C9_witness :
    exAlignSession.sync_events ≠ [] ∧
    exAlignSession.devices ≠ [] ∧
    refIndex exAlignSession.devices "A" = some 0 ∧
    calculate_time_offsets exAlignSession "A" =
      { exAlignSession with
          devices :=
            [{ device_id := "A", device_type := "pc", time_offset_ms := 0 },
             { device_id := "B", device_type := "android", time_offset_ms := 9 }] } := by
  obtain ⟨i, hi, heq⟩ := C9_calculate_time_offsets exAlignSession "A"
    (by simp [exAlignSession]) (by simp [exAlignSession])
  have hi0 : refIndex exAlignSession.devices "A" = some 0 := rfl
  have hieq : i = 0 := by
    have h := hi.symm.trans hi0
    injection h
  subst hieq
  refine ⟨by simp [exAlignSession], by simp [exAlignSession], hi0, ?_⟩
  rw [heq]
  rfl

end GSRSpec
